import Mathlib

/-!
Verification of the crawl-and-analyze core of the web-crawler repository
(Go backend, main.go). The HTML document walker, the broken-link checker,
the doctype classifier and the job lifecycle (worker loop, stop/re-run
handlers, result commit) are embedded as executable Lean definitions, and
the specified invariants are proved or refuted against them.
-/

/- ### String primitives

The Go code uses strings.HasPrefix, strings.Contains and strings.ToLower.
They are re-implemented here over the character list of a string so that
every definition reduces in the kernel. -/

/-- Is the first list a prefix of the second (character-wise)? -/
def listPrefixOf : List Char → List Char → Bool
  | [], _ => true
  | _ :: _, [] => false
  | a :: as, b :: bs => a == b && listPrefixOf as bs

/-- Is the first list a contiguous sublist of the second? -/
def listInfixOf (pat : List Char) : List Char → Bool
  | [] => listPrefixOf pat []
  | b :: bs => listPrefixOf pat (b :: bs) || listInfixOf pat bs

/-- strings.HasPrefix(s, pre). -/
def strStartsWith (s pre : String) : Bool :=
  listPrefixOf pre.data s.data

/-- strings.Contains(s, pat). -/
def strContains (s pat : String) : Bool :=
  listInfixOf pat.data s.data

/-- strings.ToLower(s) (ASCII case mapping, which is all the doctype
classifier needs). -/
def strToLower (s : String) : String :=
  ⟨s.data.map Char.toLower⟩

/- ### The parsed HTML tree (golang.org/x/net/html node model) -/

/-- html.NodeType. -/
inductive NodeType where
  | errorNode
  | textNode
  | documentNode
  | elementNode
  | commentNode
  | doctypeNode
deriving DecidableEq, Repr

/-- html.Attribute (Key/Val; the Namespace field is never read by the
analyzed code). -/
structure Attribute where
  key : String
  val : String
deriving DecidableEq, Repr

/-- html.Node: type, Data, Attr, and the children list (the Go
FirstChild/NextSibling pointers, read only through full child iteration
by the analyzed code). -/
inductive HNode where
  | node (ntype : NodeType) (data : String) (attrs : List Attribute) (children : List HNode)
deriving Repr

def HNode.ntype : HNode → NodeType
  | .node t _ _ _ => t

def HNode.data : HNode → String
  | .node _ d _ _ => d

def HNode.attrs : HNode → List Attribute
  | .node _ _ a _ => a

def HNode.children : HNode → List HNode
  | .node _ _ _ c => c

/- ### The Analysis record (struct Analysis in main.go; the fields the
walker and checker populate) -/

@[ext]
structure Analysis where
  URL : String := ""
  HTMLVersion : String := ""
  Title : String := ""
  H1Count : Nat := 0
  H2Count : Nat := 0
  H3Count : Nat := 0
  H4Count : Nat := 0
  H5Count : Nat := 0
  H6Count : Nat := 0
  InternalLinks : Nat := 0
  ExternalLinks : Nat := 0
  InaccessibleLinks : Nat := 0
  BrokenLinks : List String := []
  HasLoginForm : Bool := false
deriving DecidableEq, Repr

/- ### The document walker (the closure f inside analyzeURL) -/

/-- Does this node match the inner password test of checkForPassword:
an input element with a type="password" attribute? -/
def isPasswordInput (n : HNode) : Bool :=
  n.ntype == .elementNode && n.data == "input" &&
    n.attrs.any (fun a => a.key == "type" && a.val == "password")

mutual
/-- checkForPassword in analyzeURL: does the subtree rooted here contain
an input element with type="password"? (The Go closure sets the flag and
returns early; since the flag is only ever set to true, that is the same
as this boolean search.) -/
def checkForPassword : HNode → Bool
  | .node t d a ch => isPasswordInput (.node t d a ch) || checkForPasswordList ch
def checkForPasswordList : List HNode → Bool
  | [] => false
  | c :: cs => checkForPassword c || checkForPasswordList cs
end

/-- The action-attribute loop of the "form" case: some attribute has
Key "action" and a Val containing "login" or "signin" (the Go loop
breaks on the first hit, which for a sticky flag equals this boolean). -/
def formActionLogin (attrs : List Attribute) : Bool :=
  attrs.any (fun a => a.key == "action" && (strContains a.val "login" || strContains a.val "signin"))

/-- The "a" case of the walker switch: for every attribute with Key
"href", bump ExternalLinks when the raw value starts with "http", else
bump InternalLinks. -/
def classifyHrefs (analysis : Analysis) (attrs : List Attribute) : Analysis :=
  attrs.foldl
    (fun acc a =>
      if a.key == "href" then
        if strStartsWith a.val "http" then { acc with ExternalLinks := acc.ExternalLinks + 1 }
        else { acc with InternalLinks := acc.InternalLinks + 1 }
      else acc)
    analysis

/-- The per-node body of the walker closure f in analyzeURL: the switch
on n.Data, guarded by n.Type == ElementNode (a Go switch on a string is
this sequence of equality tests). -/
def visit (analysis : Analysis) (n : HNode) : Analysis :=
  if n.ntype == .elementNode then
    if n.data == "title" then
      match n.children with
      | c :: _ => { analysis with Title := c.data }
      | [] => analysis
    else if n.data == "h1" then { analysis with H1Count := analysis.H1Count + 1 }
    else if n.data == "h2" then { analysis with H2Count := analysis.H2Count + 1 }
    else if n.data == "h3" then { analysis with H3Count := analysis.H3Count + 1 }
    else if n.data == "h4" then { analysis with H4Count := analysis.H4Count + 1 }
    else if n.data == "h5" then { analysis with H5Count := analysis.H5Count + 1 }
    else if n.data == "h6" then { analysis with H6Count := analysis.H6Count + 1 }
    else if n.data == "a" then classifyHrefs analysis n.attrs
    else if n.data == "form" then
      let a1 := if formActionLogin n.attrs then { analysis with HasLoginForm := true } else analysis
      if !a1.HasLoginForm then
        if checkForPassword n then { a1 with HasLoginForm := true } else a1
      else a1
    else analysis
  else analysis

mutual
/-- The recursive walker f in analyzeURL: visit the node, then recurse
into every child (state-passing rendering of the Go in-place mutation). -/
def walkNode (analysis : Analysis) : HNode → Analysis
  | .node t d a ch => walkList (visit analysis (.node t d a ch)) ch
def walkList (analysis : Analysis) : List HNode → Analysis
  | [] => analysis
  | c :: cs => walkList (walkNode analysis c) cs
end

/- ### getHTMLVersion -/

mutual
/-- The recursive closure inside getHTMLVersion: on a doctype node
overwrite version with its Data (the Go return only stops the descent,
not the traversal of later siblings); otherwise recurse into children. -/
def findDoctype (version : String) : HNode → String
  | .node t d _ ch => if t == .doctypeNode then d else findDoctypeList version ch
def findDoctypeList (version : String) : List HNode → String
  | [] => version
  | c :: cs => findDoctypeList (findDoctype version c) cs
end

/-- getHTMLVersion in main.go: run the doctype scan from the empty
string, then classify by the if-chain of substring tests. -/
def getHTMLVersion (doc : HNode) : String :=
  let version := findDoctype "" doc
  if strContains (strToLower version) "html 5" || version == "html" then "HTML5"
  else if strContains (strToLower version) "xhtml 1.1" then "XHTML 1.1"
  else if strContains (strToLower version) "xhtml 1.0" then "XHTML 1.0"
  else if strContains (strToLower version) "html 4.01" then "HTML 4.01"
  else if strContains (strToLower version) "html 4.0" then "HTML 4.0"
  else "HTML5"

/- ### checkInaccessibleLinks

The Go function calls the net/url and net/http standard libraries, which
are not part of this repository. They are abstracted as an explicit
dependency record over an arbitrary type of parsed URLs; every theorem
below holds for every instantiation. -/

/-- The stdlib facilities checkInaccessibleLinks uses: url.Parse (may
fail), base.ResolveReference(link), URL.String(), and client.Get —
returning none on a transport error and the response status code
otherwise. -/
structure URLModel (U : Type) where
  parse : String → Option U
  resolveReference : U → U → U
  render : U → String
  get : String → Option Nat

/-- The per-href body of checkInaccessibleLinks: parse the raw value
(skip on error), parse the base URL (skip on error), resolve, issue one
GET, and report the resolved URL when the request errors or the status
code is in 400..599. -/
def probeHref {U : Type} (E : URLModel U) (baseURL : String) (rawVal : String) : Option String :=
  match E.parse rawVal with
  | none => none
  | some link =>
    match E.parse baseURL with
    | none => none
    | some base =>
      let resolvedLink := E.render (E.resolveReference base link)
      match E.get resolvedLink with
      | none => some resolvedLink
      | some code => if 400 ≤ code && code ≤ 599 then some resolvedLink else none

mutual
/-- The recursive closure of checkInaccessibleLinks: at every anchor
element, probe each href attribute in order and append the broken ones
to the accumulator; then recurse into children. -/
def collectBroken {U : Type} (E : URLModel U) (baseURL : String) (links : List String) :
    HNode → List String
  | .node t d a ch =>
    let links1 :=
      if t == .elementNode && d == "a" then
        a.foldl
          (fun acc attr =>
            if attr.key == "href" then
              match probeHref E baseURL attr.val with
              | some l => acc ++ [l]
              | none => acc
            else acc)
          links
      else links
    collectBrokenList E baseURL links1 ch
def collectBrokenList {U : Type} (E : URLModel U) (baseURL : String) (links : List String) :
    List HNode → List String
  | [] => links
  | c :: cs => collectBrokenList E baseURL (collectBroken E baseURL links c) cs
end

/-- checkInaccessibleLinks in main.go. -/
def checkInaccessibleLinks {U : Type} (E : URLModel U) (doc : HNode) (baseURL : String) :
    List String :=
  collectBroken E baseURL [] doc

/- ### analyzeURL, from the parsed document on

analyzeURL fetches the target and parses the body; both live outside
this repository (net/http and x/net/html). Everything after the parse is
pure and is embedded here: walk the tree, classify the HTML version,
collect broken links and set InaccessibleLinks to their number. -/

/-- The result-assembly part of analyzeURL, as a function of the parsed
document tree and the target URL string. -/
def analyzeDoc {U : Type} (E : URLModel U) (doc : HNode) (urlStr : String) : Analysis :=
  let analysis := walkNode { URL := urlStr } doc
  let analysis1 := { analysis with HTMLVersion := getHTMLVersion doc }
  let broken := checkInaccessibleLinks E doc urlStr
  { analysis1 with BrokenLinks := broken, InaccessibleLinks := broken.length }

/- ### Job store and lifecycle (startWorker, processAnalysis, handlers) -/

/-- One row of the analyses table as the worker poll sees it. -/
structure Job where
  id : Nat
  url : String
  status : String
deriving DecidableEq, Repr

/-- The poll query of startWorker: SELECT ... WHERE status = "queued". -/
def pollQueued (jobs : List Job) : List Job :=
  jobs.filter (fun j => j.status == "queued")

/-- The persisted state of one analyses row together with its
broken_links child rows. -/
@[ext]
structure JobRow where
  status : String := "queued"
  html_version : String := ""
  title : String := ""
  h1_count : Nat := 0
  h2_count : Nat := 0
  h3_count : Nat := 0
  h4_count : Nat := 0
  h5_count : Nat := 0
  h6_count : Nat := 0
  internal_links : Nat := 0
  external_links : Nat := 0
  inaccessible_links : Nat := 0
  has_login_form : Bool := false
  broken_links_rows : List String := []
deriving DecidableEq, Repr

/-- The single UPDATE of the commit transaction: copy every result
column and set status = "done". -/
def txUpdateAnalyses (analysis : Analysis) (row : JobRow) : JobRow :=
  { row with
    html_version := analysis.HTMLVersion
    title := analysis.Title
    h1_count := analysis.H1Count
    h2_count := analysis.H2Count
    h3_count := analysis.H3Count
    h4_count := analysis.H4Count
    h5_count := analysis.H5Count
    h6_count := analysis.H6Count
    internal_links := analysis.InternalLinks
    external_links := analysis.ExternalLinks
    inaccessible_links := analysis.InaccessibleLinks
    has_login_form := analysis.HasLoginForm
    status := "done" }

/-- One INSERT INTO broken_links: appends a child row (the code never
deletes previous rows). -/
def txInsertBrokenLink (row : JobRow) (link : String) : JobRow :=
  { row with broken_links_rows := row.broken_links_rows ++ [link] }

/-- Fault injected into the commit transaction: none, a failing
db.Begin, a failing UPDATE, or a failure of the k-th broken-link
INSERT. -/
inductive DBFault where
  | ok
  | beginFail
  | updateFail
  | insertFail (k : Nat)
deriving DecidableEq, Repr

/-- The INSERT loop of processAnalysis inside the transaction, with the
fault injection point; none means the transaction was rolled back. -/
def insertBrokenLoop (fault : DBFault) (k : Nat) (row : JobRow) : List String → Option JobRow
  | [] => some row
  | l :: ls =>
    if fault == .insertFail k then none
    else insertBrokenLoop fault (k + 1) (txInsertBrokenLink row l) ls

/-- The commit transaction of processAnalysis (db.Begin .. tx.Commit):
all writes are transaction-local and become visible only on Commit; on
any error the transaction is rolled back whole (result none). -/
def commitResult (fault : DBFault) (analysis : Analysis) (row : JobRow) : Option JobRow :=
  match fault with
  | .beginFail => none
  | .updateFail => none
  | _ => insertBrokenLoop fault 0 (txUpdateAnalyses analysis row) analysis.BrokenLinks

/-- processAnalysis in main.go. stoppedMeanwhile injects a stop request
landing between the transition to "running" and the status re-read
(both of which are modeled as succeeding); fetchOutcome is the result
of analyzeURL (none = error). The returned boolean records whether
analyzeURL was invoked. -/
def processAnalysis (stoppedMeanwhile : Bool) (fetchOutcome : Option Analysis)
    (fault : DBFault) (row : JobRow) : JobRow × Bool :=
  let row1 := { row with status := "running" }
  let row2 := if stoppedMeanwhile then { row1 with status := "stopped" } else row1
  if row2.status == "stopped" then (row2, false)
  else
    match fetchOutcome with
    | none => ({ row2 with status := "error" }, true)
    | some analysis =>
      match commitResult fault analysis row2 with
      | some committed => (committed, true)
      | none => (row2, true)

/-- stopAnalysisHandler: UPDATE analyses SET status = "stopped". -/
def stopAnalysis (row : JobRow) : JobRow :=
  { row with status := "stopped" }

/-- rerunHandler: UPDATE analyses SET status = "queued". -/
def rerunAnalysis (row : JobRow) : JobRow :=
  { row with status := "queued" }

/-- Two complete runs of one job with a re-run request in between, both
runs succeeding with no persistence fault. -/
def rerunScenario (a1 a2 : Analysis) (row : JobRow) : JobRow :=
  let r1 := (processAnalysis false (some a1) .ok row).1
  let r2 := rerunAnalysis r1
  (processAnalysis false (some a2) .ok r2).1

/-- The fully applied commit: the UPDATE followed by every INSERT. -/
def fullCommit (analysis : Analysis) (row : JobRow) : JobRow :=
  analysis.BrokenLinks.foldl txInsertBrokenLink (txUpdateAnalyses analysis row)

/- ### Specification-side vocabulary

These definitions restate, in the spec's terms, what the traversal is
supposed to compute; the theorems below relate the source embeddings to
them. -/

mutual
/-- The pre-order (document-order) list of all nodes of a tree. -/
def preorder : HNode → List HNode
  | .node t d a ch => .node t d a ch :: preorderList ch
def preorderList : List HNode → List HNode
  | [] => []
  | c :: cs => preorder c ++ preorderList cs
end

/-- The href attribute values this node contributes: the values of its
href attributes when it is an anchor element, nothing otherwise. -/
def hrefVals (n : HNode) : List String :=
  if n.ntype == .elementNode && n.data == "a" then
    n.attrs.filterMap (fun a => if a.key == "href" then some a.val else none)
  else []

/-- All href attribute values of anchors, in document traversal order. -/
def docHrefs (doc : HNode) : List String :=
  (preorder doc).flatMap hrefVals

/-- How many href attributes a node carries. -/
def hrefCount (n : HNode) : Nat :=
  n.attrs.countP (fun a => a.key == "href")

/-- The number of anchor elements that carry at least one href
attribute. -/
def anchorsWithHref (doc : HNode) : Nat :=
  (preorder doc).countP (fun n => !(hrefVals n).isEmpty)

/-- The title text this node would assign: its first child's data when
it is a title element with a child. -/
def titleAssigns (n : HNode) : Option String :=
  if n.ntype == .elementNode && n.data == "title" then
    match n.children with
    | c :: _ => some c.data
    | [] => none
  else none

/-- The successive title assignments of the walk, in document order. -/
def titleTexts (doc : HNode) : List String :=
  (preorder doc).filterMap titleAssigns

mutual
/-- The Data values of all doctype nodes, in document order (not
descending below a doctype node, exactly as the scan does not). -/
def doctypeVals : HNode → List String
  | .node t d _ ch => if t == .doctypeNode then [d] else doctypeValsList ch
def doctypeValsList : List HNode → List String
  | [] => []
  | c :: cs => doctypeVals c ++ doctypeValsList cs
end

/-- Modelled from the spec: the HTML-version classification table —
case-insensitive substring "html 5" or exact text "html" gives HTML5,
then "xhtml 1.1", "xhtml 1.0", "html 4.01", "html 4.0" in that priority
order; no doctype (and, matching the code, an unrecognized doctype)
gives HTML5. -/
def specClassifyDoctype : Option String → String
  | none => "HTML5"
  | some v =>
    if strContains (strToLower v) "html 5" || v == "html" then "HTML5"
    else if strContains (strToLower v) "xhtml 1.1" then "XHTML 1.1"
    else if strContains (strToLower v) "xhtml 1.0" then "XHTML 1.0"
    else if strContains (strToLower v) "html 4.01" then "HTML 4.01"
    else if strContains (strToLower v) "html 4.0" then "HTML 4.0"
    else "HTML5"

/-- A node sets the login-form flag exactly when it is a form element
whose action matches or whose subtree contains a password input. -/
def loginFormTrigger (n : HNode) : Bool :=
  n.ntype == .elementNode && n.data == "form" &&
    (formActionLogin n.attrs || checkForPassword n)

/-- Modelled from the spec: a resolved link is broken when the request
fails outright or the status code is in 400..599. -/
def specBroken {U : Type} (E : URLModel U) (resolved : String) : Bool :=
  match E.get resolved with
  | none => true
  | some code => 400 ≤ code && code ≤ 599

/-- Modelled from the spec: the contribution of one raw href value with
an already-parsed base — skip silently on parse failure, otherwise
resolve against the base and keep the resolved URL exactly when the
probe says broken. -/
def specProbe {U : Type} (E : URLModel U) (base : U) (rawVal : String) : Option String :=
  match E.parse rawVal with
  | none => none
  | some link =>
    let resolvedLink := E.render (E.resolveReference base link)
    if specBroken E resolvedLink then some resolvedLink else none

/- ### Concrete instances used in the evaluations below -/

/-- A degenerate URL model: parsing always succeeds, resolution ignores
the reference, every probe answers 200. -/
def U0 : URLModel Unit :=
  { parse := fun _ => some ()
    resolveReference := fun _ _ => ()
    render := fun _ => ""
    get := fun _ => some 200 }

/-- A URL model over plain strings: parsing fails exactly on "%bad", an
absolute reference wins, a relative one is appended to the base;
"http://dead/x" errors on GET, "http://err" answers 500, everything
else answers 200. -/
def EStr : URLModel String :=
  { parse := fun s => if s == "%bad" then none else some s
    resolveReference := fun base link => if strStartsWith link "http" then link else base ++ link
    render := fun s => s
    get := fun s =>
      if s == "http://dead/x" then none
      else if s == "http://err" then some 500
      else some 200 }

/-- Three anchors: one relative href, one absolute href, one with no
href attribute. -/
def c1doc : HNode :=
  .node .documentNode "" []
    [.node .elementNode "html" []
      [.node .elementNode "body" []
        [.node .elementNode "a" [{ key := "href", val := "/about" }] [],
         .node .elementNode "a" [{ key := "href", val := "http://x" }] [],
         .node .elementNode "a" [{ key := "rel", val := "nofollow" }] []]]]

/-- Five anchors: a dead absolute link, an unparsable href, a 500 link,
a healthy relative link, and the dead link repeated. -/
def c3doc : HNode :=
  .node .documentNode "" []
    [.node .elementNode "body" []
      [.node .elementNode "a" [{ key := "href", val := "http://dead/x" }] [],
       .node .elementNode "a" [{ key := "href", val := "%bad" }] [],
       .node .elementNode "a" [{ key := "href", val := "http://err" }] [],
       .node .elementNode "a" [{ key := "href", val := "/fine" }] [],
       .node .elementNode "a" [{ key := "href", val := "http://dead/x" }] []]]

/-- A job that received a stop request. -/
def c4job : Job :=
  { id := 1, url := "https://example.com", status := "stopped" }

/-- First run outcome: one broken link. -/
def c6run1 : Analysis :=
  { URL := "https://example.com", HTMLVersion := "HTML5", Title := "Example",
    BrokenLinks := ["https://example.com/dead"], InaccessibleLinks := 1 }

/-- Second run outcome: no broken links. -/
def c6run2 : Analysis :=
  { URL := "https://example.com", HTMLVersion := "HTML5", Title := "Example",
    BrokenLinks := [], InaccessibleLinks := 0 }

/-- A tree with two doctype nodes with different declared values. -/
def c7doc : HNode :=
  .node .documentNode "" []
    [.node .doctypeNode "xhtml 1.1" [] [],
     .node .doctypeNode "html 4.0" [] []]

/-- A document with two title elements, "A" before "B". -/
def c8doc : HNode :=
  .node .documentNode "" []
    [.node .elementNode "html" []
      [.node .elementNode "head" []
        [.node .elementNode "title" [] [.node .textNode "A" [] []],
         .node .elementNode "title" [] [.node .textNode "B" [] []]]]]

/-- A password input that is not a descendant of any form element. -/
def c10doc : HNode :=
  .node .documentNode "" []
    [.node .elementNode "html" []
      [.node .elementNode "body" []
        [.node .elementNode "div" []
          [.node .elementNode "input" [{ key := "type", val := "password" }] []]]]]

/- ### Bridge lemmas: the recursive walker as a fold over the pre-order
node list -/

mutual
theorem walkNode_eq_foldl (analysis : Analysis) (n : HNode) :
    walkNode analysis n = (preorder n).foldl visit analysis := by
  cases n with
  | node t d a ch =>
    rw [walkNode, preorder, List.foldl_cons, walkList_eq_foldl]
theorem walkList_eq_foldl (analysis : Analysis) (cs : List HNode) :
    walkList analysis cs = (preorderList cs).foldl visit analysis := by
  cases cs with
  | nil => rw [walkList, preorderList, List.foldl_nil]
  | cons c cs =>
    rw [walkList, preorderList, List.foldl_append, walkNode_eq_foldl, walkList_eq_foldl]
end

/- ### What one visit does to each field -/

theorem classifyHrefs_cons (analysis : Analysis) (x : Attribute) (xs : List Attribute) :
    classifyHrefs analysis (x :: xs) =
      classifyHrefs
        (if x.key == "href" then
          if strStartsWith x.val "http" then { analysis with ExternalLinks := analysis.ExternalLinks + 1 }
          else { analysis with InternalLinks := analysis.InternalLinks + 1 }
        else analysis) xs := rfl

theorem classifyHrefs_spec (xs : List Attribute) : ∀ analysis : Analysis,
    classifyHrefs analysis xs =
      { analysis with
        ExternalLinks := analysis.ExternalLinks +
          ((xs.filterMap fun x => if x.key == "href" then some x.val else none).countP
            fun v => strStartsWith v "http")
        InternalLinks := analysis.InternalLinks +
          ((xs.filterMap fun x => if x.key == "href" then some x.val else none).countP
            fun v => !strStartsWith v "http") } := by
  induction xs with
  | nil => intro analysis; simp [classifyHrefs]
  | cons x xs ih =>
    intro analysis
    rw [classifyHrefs_cons, ih]
    by_cases hk : x.key = "href"
    · cases hp : strStartsWith x.val "http" <;>
        (ext <;> simp [hk, hp, List.countP_cons] <;> omega)
    · ext <;> simp [hk, List.countP_cons]

theorem visit_spec (analysis : Analysis) (n : HNode) :
    visit analysis n =
      { analysis with
        Title := (titleAssigns n).getD analysis.Title
        H1Count := analysis.H1Count + (if n.ntype == .elementNode && n.data == "h1" then 1 else 0)
        H2Count := analysis.H2Count + (if n.ntype == .elementNode && n.data == "h2" then 1 else 0)
        H3Count := analysis.H3Count + (if n.ntype == .elementNode && n.data == "h3" then 1 else 0)
        H4Count := analysis.H4Count + (if n.ntype == .elementNode && n.data == "h4" then 1 else 0)
        H5Count := analysis.H5Count + (if n.ntype == .elementNode && n.data == "h5" then 1 else 0)
        H6Count := analysis.H6Count + (if n.ntype == .elementNode && n.data == "h6" then 1 else 0)
        ExternalLinks := analysis.ExternalLinks + ((hrefVals n).countP fun v => strStartsWith v "http")
        InternalLinks := analysis.InternalLinks + ((hrefVals n).countP fun v => !strStartsWith v "http")
        HasLoginForm := analysis.HasLoginForm || loginFormTrigger n } := by
  cases n with
  | node t d ats ch =>
    by_cases ht : t = NodeType.elementNode
    case neg =>
      ext <;>
        simp [visit, titleAssigns, hrefVals, loginFormTrigger, HNode.ntype, HNode.data,
          HNode.attrs, HNode.children, ht]
    case pos =>
      subst ht
      by_cases h1 : d = "title"
      · subst h1
        cases ch with
        | nil =>
          ext <;>
            simp [visit, titleAssigns, hrefVals, loginFormTrigger, HNode.ntype, HNode.data,
              HNode.attrs, HNode.children]
        | cons c cs =>
          ext <;>
            simp [visit, titleAssigns, hrefVals, loginFormTrigger, HNode.ntype, HNode.data,
              HNode.attrs, HNode.children]
      · by_cases h2 : d = "h1"
        · subst h2
          ext <;>
            simp [visit, titleAssigns, hrefVals, loginFormTrigger, HNode.ntype, HNode.data,
              HNode.attrs, HNode.children]
        · by_cases h3 : d = "h2"
          · subst h3
            ext <;>
              simp [visit, titleAssigns, hrefVals, loginFormTrigger, HNode.ntype, HNode.data,
                HNode.attrs, HNode.children]
          · by_cases h4 : d = "h3"
            · subst h4
              ext <;>
                simp [visit, titleAssigns, hrefVals, loginFormTrigger, HNode.ntype, HNode.data,
                  HNode.attrs, HNode.children]
            · by_cases h5 : d = "h4"
              · subst h5
                ext <;>
                  simp [visit, titleAssigns, hrefVals, loginFormTrigger, HNode.ntype, HNode.data,
                    HNode.attrs, HNode.children]
              · by_cases h6 : d = "h5"
                · subst h6
                  ext <;>
                    simp [visit, titleAssigns, hrefVals, loginFormTrigger, HNode.ntype, HNode.data,
                      HNode.attrs, HNode.children]
                · by_cases h7 : d = "h6"
                  · subst h7
                    ext <;>
                      simp [visit, titleAssigns, hrefVals, loginFormTrigger, HNode.ntype,
                        HNode.data, HNode.attrs, HNode.children]
                  · by_cases h8 : d = "a"
                    · subst h8
                      rw [show visit analysis (.node .elementNode "a" ats ch) =
                          classifyHrefs analysis ats from rfl, classifyHrefs_spec]
                      ext <;>
                        simp [titleAssigns, hrefVals, loginFormTrigger, HNode.ntype, HNode.data,
                          HNode.attrs, HNode.children]
                    · by_cases h9 : d = "form"
                      · subst h9
                        cases hA : formActionLogin ats <;>
                          cases hF : analysis.HasLoginForm <;>
                          cases hP : checkForPassword (.node .elementNode "form" ats ch) <;>
                          (ext <;>
                            simp [visit, titleAssigns, hrefVals, loginFormTrigger, HNode.ntype,
                              HNode.data, HNode.attrs, HNode.children, hA, hF, hP])
                      · ext <;>
                          simp [visit, titleAssigns, hrefVals, loginFormTrigger, HNode.ntype,
                            HNode.data, HNode.attrs, HNode.children, h1, h2, h3, h4, h5, h6, h7,
                            h8, h9]

/- ### Fold characterizations of the whole walk -/

theorem getLastD_cons {α : Type} (v d : α) (l : List α) :
    ((v :: l).getLast?).getD d = (l.getLast?).getD v := by
  induction l generalizing v d with
  | nil => rfl
  | cons w l ih => rw [List.getLast?_cons_cons, ih, ih]

theorem foldl_visit_InternalLinks (ns : List HNode) : ∀ analysis : Analysis,
    (ns.foldl visit analysis).InternalLinks =
      analysis.InternalLinks + ((ns.flatMap hrefVals).countP fun v => !strStartsWith v "http") := by
  induction ns with
  | nil => intro analysis; simp
  | cons n ns ih =>
    intro analysis
    rw [List.foldl_cons, ih, visit_spec]
    simp [List.countP_append]
    omega

theorem foldl_visit_ExternalLinks (ns : List HNode) : ∀ analysis : Analysis,
    (ns.foldl visit analysis).ExternalLinks =
      analysis.ExternalLinks + ((ns.flatMap hrefVals).countP fun v => strStartsWith v "http") := by
  induction ns with
  | nil => intro analysis; simp
  | cons n ns ih =>
    intro analysis
    rw [List.foldl_cons, ih, visit_spec]
    simp [List.countP_append]
    omega

theorem foldl_visit_HasLoginForm (ns : List HNode) : ∀ analysis : Analysis,
    (ns.foldl visit analysis).HasLoginForm =
      (analysis.HasLoginForm || ns.any loginFormTrigger) := by
  induction ns with
  | nil => intro analysis; simp
  | cons n ns ih =>
    intro analysis
    rw [List.foldl_cons, ih, visit_spec]
    simp [Bool.or_assoc]

theorem foldl_visit_Title (ns : List HNode) : ∀ analysis : Analysis,
    (ns.foldl visit analysis).Title =
      ((ns.filterMap titleAssigns).getLast?).getD analysis.Title := by
  induction ns with
  | nil => intro analysis; simp
  | cons n ns ih =>
    intro analysis
    rw [List.foldl_cons, ih, visit_spec]
    cases hta : titleAssigns n with
    | none => simp [hta, List.filterMap_cons]
    | some v => simp [hta, List.filterMap_cons, getLastD_cons]

/- ### analyzeDoc field characterizations -/

theorem analyzeDoc_InternalLinks {U : Type} (E : URLModel U) (doc : HNode) (urlStr : String) :
    (analyzeDoc E doc urlStr).InternalLinks =
      ((docHrefs doc).countP fun v => !strStartsWith v "http") := by
  simp [analyzeDoc, walkNode_eq_foldl, foldl_visit_InternalLinks, docHrefs]

theorem analyzeDoc_ExternalLinks {U : Type} (E : URLModel U) (doc : HNode) (urlStr : String) :
    (analyzeDoc E doc urlStr).ExternalLinks =
      ((docHrefs doc).countP fun v => strStartsWith v "http") := by
  simp [analyzeDoc, walkNode_eq_foldl, foldl_visit_ExternalLinks, docHrefs]

theorem analyzeDoc_Title {U : Type} (E : URLModel U) (doc : HNode) (urlStr : String) :
    (analyzeDoc E doc urlStr).Title = ((titleTexts doc).getLast?).getD "" := by
  simp [analyzeDoc, walkNode_eq_foldl, foldl_visit_Title, titleTexts]

theorem analyzeDoc_HasLoginForm {U : Type} (E : URLModel U) (doc : HNode) (urlStr : String) :
    (analyzeDoc E doc urlStr).HasLoginForm = (preorder doc).any loginFormTrigger := by
  simp [analyzeDoc, walkNode_eq_foldl, foldl_visit_HasLoginForm]

theorem analyzeDoc_BrokenLinks {U : Type} (E : URLModel U) (doc : HNode) (urlStr : String) :
    (analyzeDoc E doc urlStr).BrokenLinks = checkInaccessibleLinks E doc urlStr := by
  simp [analyzeDoc]

/- ### Counting helpers for the link partition -/

theorem length_filterMap_href (xs : List Attribute) :
    (xs.filterMap fun a => if a.key == "href" then some a.val else none).length =
      xs.countP fun a => a.key == "href" := by
  induction xs with
  | nil => rfl
  | cons x xs ih =>
    rw [List.filterMap_cons, List.countP_cons]
    by_cases hk : x.key = "href"
    · rw [if_pos (by simp [hk]), List.length_cons, ih]
      simp [hk]
    · rw [if_neg (by simp [hk]), ih]
      simp [hk]

theorem length_hrefVals (n : HNode) : (hrefVals n).length ≤ hrefCount n := by
  rw [hrefVals, hrefCount]
  by_cases h : n.ntype == NodeType.elementNode && n.data == "a"
  · rw [if_pos h, length_filterMap_href]
  · rw [if_neg h]; simp

theorem flatMap_hrefVals_length (ns : List HNode) (h : ∀ n ∈ ns, hrefCount n ≤ 1) :
    (ns.flatMap hrefVals).length = ns.countP fun n => !(hrefVals n).isEmpty := by
  induction ns with
  | nil => simp
  | cons n ns ih =>
    have hn : (hrefVals n).length ≤ 1 :=
      le_trans (length_hrefVals n) (h n (List.mem_cons_self n ns))
    rw [List.flatMap_cons, List.length_append, List.countP_cons,
      ih (fun m hm => h m (List.mem_cons_of_mem n hm))]
    cases hv : hrefVals n with
    | nil => simp
    | cons v vs =>
      have : vs = [] := by
        rw [hv] at hn
        simpa using hn
      subst this
      simp [hv]
      omega

/- ### Doctype scan characterization -/

theorem getLastD_append {α : Type} (l1 l2 : List α) (d : α) :
    ((l1 ++ l2).getLast?).getD d = ((l2.getLast?).getD ((l1.getLast?).getD d)) := by
  rw [List.getLast?_append]
  cases h : l2.getLast? <;> simp [Option.or]

mutual
theorem findDoctype_eq (version : String) (n : HNode) :
    findDoctype version n = ((doctypeVals n).getLast?).getD version := by
  cases n with
  | node t d a ch =>
    rw [findDoctype, doctypeVals]
    by_cases ht : t == NodeType.doctypeNode
    · rw [if_pos ht, if_pos ht]; rfl
    · rw [if_neg ht, if_neg ht, findDoctypeList_eq]
theorem findDoctypeList_eq (version : String) (cs : List HNode) :
    findDoctypeList version cs = ((doctypeValsList cs).getLast?).getD version := by
  cases cs with
  | nil => rfl
  | cons c cs =>
    rw [findDoctypeList, doctypeValsList, findDoctypeList_eq, findDoctype_eq, getLastD_append]
end

/- ### Link checker characterization -/

theorem brokenFold_eq {U : Type} (E : URLModel U) (baseURL : String) (ats : List Attribute) :
    ∀ links : List String,
      ats.foldl
        (fun acc attr =>
          if attr.key == "href" then
            match probeHref E baseURL attr.val with
            | some l => acc ++ [l]
            | none => acc
          else acc) links =
      links ++ ((ats.filterMap fun x => if x.key == "href" then some x.val else none).filterMap
        (probeHref E baseURL)) := by
  induction ats with
  | nil => intro links; simp
  | cons x xs ih =>
    intro links
    rw [List.foldl_cons, ih]
    by_cases hk : x.key = "href"
    · cases hp : probeHref E baseURL x.val <;> simp [hk, hp, List.filterMap_cons]
    · simp [hk, List.filterMap_cons]

mutual
theorem collectBroken_eq {U : Type} (E : URLModel U) (baseURL : String) (links : List String)
    (n : HNode) :
    collectBroken E baseURL links n =
      links ++ (preorder n).flatMap fun m => (hrefVals m).filterMap (probeHref E baseURL) := by
  cases n with
  | node t d a ch =>
    simp only [collectBroken]
    rw [collectBrokenList_eq, preorder, List.flatMap_cons]
    by_cases h : t == NodeType.elementNode && d == "a"
    · rw [if_pos h, brokenFold_eq]
      simp [hrefVals, HNode.ntype, HNode.data, HNode.attrs, h]
    · rw [if_neg h]
      simp [hrefVals, HNode.ntype, HNode.data, HNode.attrs, h]
theorem collectBrokenList_eq {U : Type} (E : URLModel U) (baseURL : String) (links : List String)
    (cs : List HNode) :
    collectBrokenList E baseURL links cs =
      links ++ (preorderList cs).flatMap fun m => (hrefVals m).filterMap (probeHref E baseURL) := by
  cases cs with
  | nil => simp [collectBrokenList, preorderList]
  | cons c cs =>
    rw [collectBrokenList, collectBrokenList_eq, collectBroken_eq, preorderList]
    simp [List.flatMap_append, List.append_assoc]
end

/- ### Commit transaction characterization -/

theorem foldl_txInsert_status (ls : List String) : ∀ row : JobRow,
    (ls.foldl txInsertBrokenLink row).status = row.status := by
  induction ls with
  | nil => intro row; rfl
  | cons l ls ih => intro row; rw [List.foldl_cons, ih]; rfl

theorem foldl_txInsert_rows (ls : List String) : ∀ row : JobRow,
    (ls.foldl txInsertBrokenLink row).broken_links_rows = row.broken_links_rows ++ ls := by
  induction ls with
  | nil => intro row; simp
  | cons l ls ih => intro row; rw [List.foldl_cons, ih]; simp [txInsertBrokenLink]

theorem insertBrokenLoop_spec (ls : List String) : ∀ (fault : DBFault) (k : Nat) (row : JobRow),
    insertBrokenLoop fault k row ls = none ∨
      insertBrokenLoop fault k row ls = some (ls.foldl txInsertBrokenLink row) := by
  induction ls with
  | nil => intro fault k row; right; rfl
  | cons l ls ih =>
    intro fault k row
    rw [insertBrokenLoop]
    by_cases hf : fault == DBFault.insertFail k
    · left; rw [if_pos hf]
    · rw [if_neg hf, List.foldl_cons]
      exact ih fault (k + 1) (txInsertBrokenLink row l)

/- ### Remaining helpers -/

theorem countP_split {α : Type} (p : α → Bool) (l : List α) :
    (l.countP fun a => !(p a)) + l.countP p = l.length := by
  induction l with
  | nil => rfl
  | cons x xs ih => cases hx : p x <;> simp [List.countP_cons, hx] <;> omega

theorem filterMap_flatMap_nodes (f : String → Option String) (ns : List HNode) :
    (ns.flatMap hrefVals).filterMap f = ns.flatMap fun m => (hrefVals m).filterMap f := by
  induction ns with
  | nil => rfl
  | cons n ns ih => simp [List.flatMap_cons, List.filterMap_append, ih]

theorem probeHref_eq_specProbe {U : Type} (E : URLModel U) {baseURL : String} {b : U}
    (hb : E.parse baseURL = some b) (v : String) :
    probeHref E baseURL v = specProbe E b v := by
  simp only [probeHref, specProbe, specBroken]
  cases hv : E.parse v with
  | none => rfl
  | some link =>
    rw [hb]
    cases hg : E.get (E.render (E.resolveReference b link)) with
    | none => simp [hg]
    | some code => simp [hg]

/- ### Claim theorems -/

/-- C1: for every parsed document (whose parser, as the HTML5 algorithm
requires, drops duplicate attributes, so each anchor carries at most one
href attribute), InternalLinks + ExternalLinks in the produced
AnalysisResult equals the number of anchor elements that carry an href
attribute; anchors without href contribute to neither counter. -/
theorem c1_internal_external_partition {U : Type} (E : URLModel U) (doc : HNode) (urlStr : String)
    (hsingle : ∀ n ∈ preorder doc, hrefCount n ≤ 1) :
    (analyzeDoc E doc urlStr).InternalLinks + (analyzeDoc E doc urlStr).ExternalLinks =
      anchorsWithHref doc := by
  rw [analyzeDoc_InternalLinks, analyzeDoc_ExternalLinks]
  have hsplit := countP_split (fun v => strStartsWith v "http") (docHrefs doc)
  have hlen : (docHrefs doc).length = anchorsWithHref doc := by
    rw [docHrefs, anchorsWithHref, flatMap_hrefVals_length (preorder doc) hsingle]
  omega

/-- C1 witness: on a concrete document with a relative-href anchor, an
absolute-href anchor and an anchor without href, the two counters sum to
the two anchors that carry an href. -/
theorem c1_witness :
    ((analyzeDoc U0 c1doc "https://example.com").InternalLinks +
        (analyzeDoc U0 c1doc "https://example.com").ExternalLinks = anchorsWithHref c1doc) ∧
      anchorsWithHref c1doc = 2 :=
  ⟨c1_internal_external_partition U0 c1doc "https://example.com" (by decide), by decide⟩

/-- C2: in every AnalysisResult assembled by analyzeURL, the length of
BrokenLinks equals InaccessibleLinks. -/
theorem c2_broken_links_length {U : Type} (E : URLModel U) (doc : HNode) (urlStr : String) :
    ((analyzeDoc E doc urlStr).BrokenLinks).length = (analyzeDoc E doc urlStr).InaccessibleLinks := by
  simp [analyzeDoc]

/-- C9: an href value is counted external exactly when the raw value
starts with the literal, case-sensitive prefix "http", and internal
otherwise, with no URL-validity check involved. -/
theorem c9_href_http_classification {U : Type} (E : URLModel U) (doc : HNode) (urlStr : String) :
    (analyzeDoc E doc urlStr).ExternalLinks =
        ((docHrefs doc).countP fun v => strStartsWith v "http") ∧
      (analyzeDoc E doc urlStr).InternalLinks =
        ((docHrefs doc).countP fun v => !strStartsWith v "http") :=
  ⟨analyzeDoc_ExternalLinks E doc urlStr, analyzeDoc_InternalLinks E doc urlStr⟩

/-- C8 counterexample: with titles "A" then "B" in document order the
walker reports "B" — the first occurrence does not win, refuting the
claim as stated. -/
theorem c8_counterexample :
    (titleTexts c8doc).head? = some "A" ∧ (analyzeDoc U0 c8doc "u").Title = "B" ∧
      ("B" : String) ≠ "A" :=
  ⟨rfl, rfl, by decide⟩

/-- C8 amended: the last title element with a first child determines the
page title (every such element overwrites the title, so the final value
is the last assignment, or the empty string if there is none). -/
theorem c8_title_last_assignment {U : Type} (E : URLModel U) (doc : HNode) (urlStr : String) :
    (analyzeDoc E doc urlStr).Title = ((titleTexts doc).getLast?).getD "" :=
  analyzeDoc_Title E doc urlStr

/-- C7 counterexample: on a tree whose first doctype is "xhtml 1.1" and
whose second is "html 4.0", getHTMLVersion returns "HTML 4.0", not the
classification of the first doctype — the scan does not stop at the
first match. -/
theorem c7_counterexample :
    (doctypeVals c7doc).head? = some "xhtml 1.1" ∧
      specClassifyDoctype ((doctypeVals c7doc).head?) = "XHTML 1.1" ∧
      getHTMLVersion c7doc = "HTML 4.0" ∧
      ("HTML 4.0" : String) ≠ "XHTML 1.1" :=
  ⟨rfl, by decide, by decide, by decide⟩

/-- C7 amended: classification uses the last doctype node in pre-order
(the scan overwrites on every doctype it meets; for a document with at
most one doctype node, as any parsed document has, this coincides with
the first), mapped through the stated priority table, and a tree with
no doctype node classifies as HTML5. -/
theorem c7_doctype_last_match (doc : HNode) :
    getHTMLVersion doc = specClassifyDoctype ((doctypeVals doc).getLast?) := by
  simp only [getHTMLVersion, findDoctype_eq]
  cases h : (doctypeVals doc).getLast? with
  | none => decide
  | some v => rfl

/-- C3: when the page URL itself parses (guaranteed at the call site,
since the page was fetched from it), the broken-link list is exactly the
href occurrences in document traversal order, each parsed (silently
skipped on failure), resolved against the base, probed independently
once per occurrence, and kept exactly when the probe fails outright or
answers a 400–599 status. -/
theorem c3_broken_link_classification {U : Type} (E : URLModel U) (doc : HNode)
    (baseURL : String) (b : U) (hb : E.parse baseURL = some b) :
    checkInaccessibleLinks E doc baseURL = (docHrefs doc).filterMap (specProbe E b) := by
  rw [checkInaccessibleLinks, collectBroken_eq, List.nil_append, docHrefs,
    filterMap_flatMap_nodes]
  have hfun : probeHref E baseURL = specProbe E b := funext (probeHref_eq_specProbe E hb)
  rw [hfun]

/-- C3 witness: on the concrete five-anchor page, the checker reports
the dead link, the 500 link and the repeated dead link, in traversal
order, skipping the unparsable href and the healthy link. -/
theorem c3_witness :
    EStr.parse "http://base" = some "http://base" ∧
      checkInaccessibleLinks EStr c3doc "http://base" =
        ["http://dead/x", "http://err", "http://dead/x"] :=
  ⟨rfl, by
    rw [c3_broken_link_classification EStr c3doc "http://base" "http://base" rfl]
    rfl⟩

/-- C10: if no form element in the document has a login/signin action
and no form subtree contains a password input, the login-form flag stays
false — in particular a password input outside every form never sets it,
because the password scan runs only inside form subtrees. -/
theorem c10_password_outside_form {U : Type} (E : URLModel U) (doc : HNode) (urlStr : String)
    (hforms : ∀ n ∈ preorder doc, n.ntype = NodeType.elementNode → n.data = "form" →
      formActionLogin n.attrs = false ∧ checkForPassword n = false) :
    (analyzeDoc E doc urlStr).HasLoginForm = false := by
  rw [analyzeDoc_HasLoginForm, List.any_eq_false]
  intro n hn
  by_cases hnt : n.ntype = NodeType.elementNode
  · by_cases hnd : n.data = "form"
    · obtain ⟨hA, hP⟩ := hforms n hn hnt hnd
      simp [loginFormTrigger, hnt, hnd, hA, hP]
    · simp [loginFormTrigger, hnd]
  · simp [loginFormTrigger, hnt]

/-- C10 witness: a document whose only password input sits outside every
form (the whole-tree password scan does find it) reports no login
form. -/
theorem c10_witness :
    checkForPassword c10doc = true ∧ (analyzeDoc U0 c10doc "u").HasLoginForm = false :=
  ⟨rfl, c10_password_outside_form U0 c10doc "u" (by decide)⟩

/-- C4: the worker poll selects only "queued" jobs, so a "stopped" job
is never dispatched by it; and a stop request landing between dispatch
and the early-exit re-read makes the execution abort before invoking the
analyzer, leaving the job "stopped", not "error". -/
theorem c4_stopped_never_dispatched (jobs : List Job) (j : Job) (hstopped : j.status = "stopped")
    (fetchOutcome : Option Analysis) (fault : DBFault) (row : JobRow) :
    j ∉ pollQueued jobs ∧
      (processAnalysis true fetchOutcome fault row).1.status = "stopped" ∧
      (processAnalysis true fetchOutcome fault row).2 = false := by
  refine ⟨?_, ?_, ?_⟩
  · intro hmem
    rw [pollQueued] at hmem
    have hq := (List.mem_filter.mp hmem).2
    rw [hstopped] at hq
    simp at hq
  · simp [processAnalysis]
  · simp [processAnalysis]

/-- C4 witness: the concrete stopped job is not dispatched, and a
stop-raced execution ends "stopped" without calling the analyzer. -/
theorem c4_witness :
    c4job ∉ pollQueued [c4job] ∧
      (processAnalysis true none DBFault.ok {}).1.status = "stopped" ∧
      (processAnalysis true none DBFault.ok {}).2 = false :=
  c4_stopped_never_dispatched [c4job] c4job rfl none DBFault.ok {}

/-- C5: the commit of a successful analysis is atomic with the "done"
transition — for every injected persistence fault the job row either
carries the complete committed result with status "done", or is exactly
the pre-commit row still in "running"; no partial write is
observable. -/
theorem c5_commit_atomicity (analysis : Analysis) (fault : DBFault) (row : JobRow) :
    ((processAnalysis false (some analysis) fault row).1.status = "done" ∧
        (processAnalysis false (some analysis) fault row).1 =
          fullCommit analysis { row with status := "running" }) ∨
      ((processAnalysis false (some analysis) fault row).1.status = "running" ∧
        (processAnalysis false (some analysis) fault row).1 = { row with status := "running" }) := by
  have hdone : ∀ r : JobRow,
      (analysis.BrokenLinks.foldl txInsertBrokenLink (txUpdateAnalyses analysis r)).status =
        "done" := by
    intro r
    rw [foldl_txInsert_status]
    rfl
  cases fault with
  | beginFail => right; constructor <;> simp [processAnalysis, commitResult]
  | updateFail => right; constructor <;> simp [processAnalysis, commitResult]
  | ok =>
    rcases insertBrokenLoop_spec analysis.BrokenLinks DBFault.ok 0
        (txUpdateAnalyses analysis { row with status := "running" }) with h | h
    · right; constructor <;> simp [processAnalysis, commitResult, h]
    · left
      constructor
      · simp [processAnalysis, commitResult, h, hdone]
      · simp [processAnalysis, commitResult, h, fullCommit]
  | insertFail k =>
    rcases insertBrokenLoop_spec analysis.BrokenLinks (DBFault.insertFail k) 0
        (txUpdateAnalyses analysis { row with status := "running" }) with h | h
    · right; constructor <;> simp [processAnalysis, commitResult, h]
    · left
      constructor
      · simp [processAnalysis, commitResult, h, hdone]
      · simp [processAnalysis, commitResult, h, fullCommit]

/-- C6 (code bug): a job whose first run committed one broken link and
whose re-run completes with none ends with the old broken_links row
still present while inaccessible_links is 0 — the previous list is not
replaced, because the commit only inserts rows and never deletes the
prior run's rows. -/
theorem c6_residual_broken_links :
    (rerunScenario c6run1 c6run2 {}).status = "done" ∧
      (rerunScenario c6run1 c6run2 {}).inaccessible_links = 0 ∧
      (rerunScenario c6run1 c6run2 {}).broken_links_rows = ["https://example.com/dead"] :=
  ⟨rfl, rfl, rfl⟩
